import Mathlib

/-!
Verification of the katsu bytecode compiler / virtual machine specification
against a shallow embedding of `src/interpreter.py` (with the relevant
registration entry points of `src/builtin.py`).

Conventions used throughout the embedding:
* Python objects with identity (type objects, call frames) are represented by
  indices: type objects live in a `Store` (a list of `TypeNode`s, index = id),
  and call frames carry an `fid` field as an identity surrogate.  Python `is`
  becomes id equality.  Structural `==` on `TypeValue` compares
  name/bases/sealed; every reachable construction gives distinct type objects
  distinct names, so `==` and `is` agree and both are modelled by id equality.
* Mutation is modelled by explicit state passing.  A Python method that
  mutates and may raise returns a success flag (or `Except`) together with the
  post-state; a raised exception leaves prior mutations in place exactly as in
  the source.
* Python `assert` statements are preconditions of the call sites; they are not
  re-modelled, and theorems carry the corresponding hypotheses.
* Source spans, debug printing and log output are dropped.
-/

namespace Katsu

/-! ## Type model (interpreter.py, TypeValue / c3_linearization / is_subtype) -/

/-- A type object in the interpreter's type graph (interpreter.py `TypeValue`).
`linearization` and `subtypes` are the mutable cached fields of the Python
object.  `isMixin` records whether the object is a `MixinTypeValue`
(builtin.py `handle__mixin_`); `MixinTypeValue` adds no fields.
`DataclassTypeValue`'s slots are irrelevant to the linearization claims and are
omitted. -/
structure TypeNode where
  name : String
  bases : List Nat
  sealed : Bool
  linearization : List Nat
  subtypes : List Nat
  isMixin : Bool
deriving Repr, DecidableEq

/-- The heap of type objects; a type id is an index into this list. -/
abbrev Store := List TypeNode

/-- Replace the node at id `t` (no-op when out of range, which is unreachable
for ids produced by `mkType`). -/
def Store.modifyAt (s : Store) (t : Nat) (f : TypeNode → TypeNode) : Store :=
  match s.get? t with
  | some n => s.set t (f n)
  | none => s

/-- The linearization list cached on the object with id `t` (empty for a
dangling id, which is unreachable). -/
def linOf (s : Store) (t : Nat) : List Nat :=
  ((s.get? t).map TypeNode.linearization).getD []

/-- The candidate test inside `c3_merge` (interpreter.py 186-191): a head is
acceptable when it appears in no list's tail. -/
def goodHead (linss : List (List Nat)) (c : Nat) : Bool :=
  linss.all (fun lin => !(lin.drop 1).contains c)

/-- The head-search loop of `c3_merge`: the first list head that is in no tail.
All lists are nonempty at every iteration of the source loop; an empty list is
skipped here (assert-violating inputs only). -/
def findHead (linss : List (List Nat)) : List (List Nat) → Option Nat
  | [] => none
  | [] :: rest => findHead linss rest
  | (c :: _) :: rest => if goodHead linss c then some c else findHead linss rest

/-- One removal pass of `c3_merge` (interpreter.py 194-197): remove `h` from
every list whose head it is, then drop emptied lists. -/
def removeHead (h : Nat) (linss : List (List Nat)) : List (List Nat) :=
  (linss.map (fun lin =>
    match lin with
    | c :: rest => if c = h then rest else lin
    | [] => [])).filter (fun lin => !lin.isEmpty)

/-- `c3_merge` (interpreter.py 181-200), with explicit fuel.  Each source-loop
iteration removes at least one element from the lists, so total length bounds
the iteration count and the fuel supplied by `c3linOf` can never run out;
`none` means the merge failed (the Python `return None`). -/
def c3merge : Nat → List (List Nat) → Option (List Nat)
  | 0, _ => none
  | _, [] => some []
  | fuel + 1, linss =>
    match findHead linss linss with
    | none => none
    | some h => (c3merge fuel (removeHead h linss)).map (h :: ·)

/-- `c3_linearization` (interpreter.py 179-215) for a type object with id `t`
and bases `bases`, reading base linearizations from `s`.  The bases list is
passed explicitly so that the same function serves `__post_init__` (where the
object is not yet in the store).  A raised `ValueError` (cycle, or failed
merge) is `none`. -/
def c3linOf (s : Store) (t : Nat) (bases : List Nat) : Option (List Nat) :=
  let baseLins := bases.map (fun b => linOf s b)
  if baseLins.any (fun lin => lin.contains t) then none
  else if bases.isEmpty then some [t]
  else
    let lists := baseLins ++ [bases]
    match c3merge ((lists.map List.length).sum + 1) lists with
    | none => none
    | some m => some (t :: m)

/-- `c3_linearization` applied to the stored object `t` (reads its current
bases from the store, as `try_set_bases` does after mutating them). -/
def c3lin (s : Store) (t : Nat) : Option (List Nat) :=
  match s.get? t with
  | none => none
  | some n => c3linOf s t n.bases

/-- The subtype re-linearization loop at the end of `try_set_bases`
(interpreter.py 174-176).  Each subtype's linearization is recomputed against
the current store.  The source comment claims this cannot fail, but
`c3_linearization` can still raise here: the exception then propagates with
all earlier iterations' updates left in place (Bool = success flag). -/
def relinSubtypes (s : Store) : List Nat → Bool × Store
  | [] => (true, s)
  | st :: rest =>
    match c3lin s st with
    | none => (false, s)
    | some lin => relinSubtypes (s.modifyAt st (fun m => { m with linearization := lin })) rest

/-- `TypeValue.try_set_bases` (interpreter.py 164-176).  Sets the new bases,
recomputes the linearization (restoring the old bases and re-raising on
failure, which reproduces the original store since the linearization was not
yet touched), then re-linearizes the recorded subtypes. -/
def trySetBases (s : Store) (t : Nat) (newBases : List Nat) : Bool × Store :=
  match s.get? t with
  | none => (false, s)
  | some n =>
    let s1 := s.set t { n with bases := newBases }
    match c3lin s1 t with
    | none => (false, s1.set t n)
    | some lin => relinSubtypes (s1.set t { n with bases := newBases, linearization := lin }) n.subtypes

/-- Registration step of `TypeValue.__post_init__` (interpreter.py 156-159):
the new type `t` appends itself to `base.subtypes` if not already present. -/
def registerSubtype (t : Nat) (s : Store) (b : Nat) : Store :=
  s.modifyAt b (fun m => if m.subtypes.contains t then m else { m with subtypes := m.subtypes ++ [t] })

/-- Creation of a `TypeValue` / `MixinTypeValue` / `DataclassTypeValue`
(interpreter.py `__post_init__`): the new object gets the next free id, its
linearization is computed (creation fails when c3 fails), and it registers
itself in the subtypes list of every strict member of its linearization. -/
def mkType (s : Store) (name : String) (bases : List Nat) (sealed : Bool) (isMixin : Bool) :
    Option (Store × Nat) :=
  let t := s.length
  match c3linOf s t bases with
  | none => none
  | some lin =>
    let node : TypeNode := ⟨name, bases, sealed, lin, [], isMixin⟩
    some ((lin.drop 1).foldl (registerSubtype t) (s ++ [node]), t)

/-- `is_subtype` (interpreter.py 290-297): length comparison plus a single
element comparison at the suffix position.  The source asserts both
linearizations nonempty (always true: a linearization starts with the type
itself); an empty one yields `false` here. -/
def isSubtype (s : Store) (a b : Nat) : Bool :=
  let la := linOf s a
  let lb := linOf s b
  match lb with
  | [] => false
  | b0 :: _ => decide (lb.length ≤ la.length) && (la.get? (la.length - lb.length) == some b0)

/-- The specification's wording for `is_subtype` (spec.md §3): "B's
linearization is found, head-first, as a suffix of A's linearization".  Stated
from the spec's words for comparison with the source's `isSubtype`. -/
def linSuffixSpec (s : Store) (a b : Nat) : Prop :=
  linOf s b <:+ linOf s a

/-- `handle__mixin_` (builtin.py 431-438): creates a `MixinTypeValue` with no
bases, not sealed.  (The name-collision check on the context is outside the
type layer.) -/
def mkMixin (s : Store) (name : String) : Option (Store × Nat) :=
  mkType s name [] false true

/-- `handle__mix_in_to_` (builtin.py 445-452): requires the first argument to
be a `MixinTypeValue`, then calls `try_set_bases` on the target with the mixin
appended.  The target's `sealed` flag is never consulted. -/
def mixInTo (s : Store) (mixin t : Nat) : Bool × Store :=
  match s.get? mixin, s.get? t with
  | some mnode, some _ =>
    if mnode.isMixin then trySetBases s t ((s.get? t).elim [] TypeNode.bases ++ [mixin])
    else (false, s)
  | _, _ => (false, s)

/-- The twelve built-in type objects created at import time
(interpreter.py 246-258), ids 0-11 in creation order.  `DataclassType`
(id 11) has base `Type` (id 10), which therefore records it as a subtype. -/
def baseStore : Store :=
  [ ⟨"Number", [], true, [0], [], false⟩,
    ⟨"String", [], true, [1], [], false⟩,
    ⟨"Bool", [], true, [2], [], false⟩,
    ⟨"Null", [], true, [3], [], false⟩,
    ⟨"Symbol", [], true, [4], [], false⟩,
    ⟨"Vector", [], true, [5], [], false⟩,
    ⟨"Tuple", [], true, [6], [], false⟩,
    ⟨"Quote", [], true, [7], [], false⟩,
    ⟨"Continuation", [], true, [8], [], false⟩,
    ⟨"ReturnContinuation", [], true, [9], [], false⟩,
    ⟨"Type", [], true, [10], [11], false⟩,
    ⟨"DataclassType", [10], true, [11, 10], [], false⟩ ]

/-- Chains a mix-in step onto a partially built store, keeping `none` on any
failure (used to exhibit concrete reachable type graphs). -/
def andThenMix (r : Option Store) (mixin t : Nat) : Option Store :=
  r.bind (fun s => let p := mixInTo s mixin t; if p.1 then some p.2 else none)

/-- A reachable type graph exercising stale linearizations: starting from the
built-in types, create dataclass `A` (id 12, `data: :A has: dc`) and mixins
`T`, `X`, `U` (ids 13, 14, 15), then evaluate `mix-in: T to: A`,
`mix-in: X to: A`, `mix-in: U to: T`.  The final mix-in updates `T`'s
linearization to `[T, U]`, but `A` is not in `T.subtypes` (it acquired `T`
after creation, and `try_set_bases` registers no subtype edges), so `A`'s
linearization stays `[A, T, X]`. -/
def c1Setup : Option Store :=
  (mkType baseStore "A" [] false false).bind (fun p =>
  (mkMixin p.1 "T").bind (fun q =>
  (mkMixin q.1 "X").bind (fun u =>
  (mkMixin u.1 "U").bind (fun v =>
  andThenMix (andThenMix (andThenMix (some v.1) 13 12) 14 12) 15 13))))

/-- The store of `c1Setup`, extracted. -/
def c1Store : Store := c1Setup.getD []

instance (s : Store) (a b : Nat) : Decidable (linSuffixSpec s a b) :=
  decidable_of_iff (linOf s b = (linOf s a).drop ((linOf s a).length - (linOf s b).length))
    (List.suffix_iff_eq_drop).symm

/-- `baseStore` after evaluating `mixin: :M` (builtin.py `handle__mixin_`):
the new mixin gets id 12. -/
def sealedMixStore : Store := baseStore ++ [⟨"M", [], false, [12], [], true⟩]

/-! ## AST (parser.py).  Tokens are reduced to their payloads; spans dropped. -/

/-- A literal token: TokenType SYMBOL / NUMBER / STRING with its value. -/
inductive LiteralTok where
  | symbolLit (s : String)
  | numberLit (n : Int)
  | stringLit (s : String)
deriving Repr, DecidableEq

/-- parser.py expression nodes.  `nAryMessage` pairs each message keyword with
one argument (the parser guarantees equal lengths). -/
inductive Expr where
  | unaryOp (op : String) (arg : Expr)
  | binaryOp (op : String) (left : Expr) (right : Expr)
  | nameE (n : String)
  | literal (l : LiteralTok)
  | unaryMessage (target : Expr) (message : String)
  | nAryMessage (target : Option Expr) (messages : List String) (args : List Expr)
  | paren (inner : Expr)
  | quoteE (parameters : List String) (body : Expr)
  | dataE (components : List Expr)
  | seqE (sequence : List Expr)
  | tupleE (components : List Expr)

/-! ## Compilation contexts (interpreter.py CompilationContext) -/

/-- The kinds of slot the compiler can resolve (interpreter.py
`compile_invocation`): a runtime `Value`, a `MultiMethod`, the placeholders
`UndeterminedValue` / `UndeterminedMethod`, or a `CompileTimeHandler`.  Only
the kind drives bytecode emission, so payloads are omitted (the multimethod
identity is used in the source only for dependency tracking, which is outside
the embedded claims). -/
inductive CSlot where
  | value | multimethod | undeterminedValue | undeterminedMethod | compileTimeHandler
deriving Repr, DecidableEq

/-- interpreter.py `CompilationContext`.  Its base chain may end in a runtime
`Context`; the source's `lookup` walks both shapes through their `slots` maps
identically, so a single chained shape is used. -/
inductive CompCtxt where
  | mk (slots : List (String × CSlot)) (base : Option CompCtxt)

/-- `CompilationContext.lookup` (interpreter.py 623-631): walk the chain
innermost-outermost; `none` is unbound. -/
def CompCtxt.lookup : CompCtxt → String → Option CSlot
  | .mk slots base, s =>
    match slots.find? (fun p => p.1 == s) with
    | some p => some p.2
    | none => match base with
      | some b => b.lookup s
      | none => none

/-! ## Runtime values, bytecode, call frames (interpreter.py object model)

The Python object graph is mutually recursive: Values contain Quotes contain
bytecode contains Values; Continuations contain whole runtime states.  The
recursive knot is built from type constructors parametric in the value type,
then tied by `Value`. -/

/-- interpreter.py `Context`: name-to-slot chain with optional base.
A slot holds a `Value` or a `MultiMethod`; multimethods are mutable objects
referenced from contexts, represented by an id (no embedded VM claim resolves
a multimethod out of a context). -/
inductive CtxtG (V : Type) where
  | mk (slots : List (String × Sum V Nat)) (base : Option (CtxtG V))

mutual
/-- interpreter.py `BytecodeOp` (the op list at lines 357-368), one constructor
per op string, with the op's argument tuple inlined. -/
inductive OpG (V : Type) where
  | getSlot (slot : String)
  | createSlot (slot : String)
  | pushDefaultReceiver
  | pushValue (v : V)
  | pushClosure (q : QuoteG V)
  | invokeOp (message : String) (nargs : Nat)
  | tailInvokeOp (message : String) (nargs : Nat)
  | componentsToVector (length : Nat)
  | componentsToTuple (length : Nat)
  | dropOp

/-- interpreter.py `QuoteValue`: parameters, compiled body, captured context
(`none` until `push-closure` executes), span dropped. -/
inductive QuoteG (V : Type) where
  | mk (parameters : List String) (compiledBody : CompiledBodyG V) (ctxt : Option (CtxtG V))

/-- interpreter.py `CompiledBody`: the unlowered body, the cached bytecode
(`none` exactly when invalidated), and the compilation context used for
(re)compilation. -/
inductive CompiledBodyG (V : Type) where
  | mk (body : Expr) (bytecode : Option (List (OpG V))) (compCtxt : CompCtxt)
end

/-- An element of a frame's data stack.  The source type is
`list[Union[Value, Expr, Context]]`; the signal path pushes a `Context`,
`get-slot` can push a `MultiMethod` (an id here, as in context slots), and
`panic!:` pushes a bare host string (`junk`). -/
inductive DSElemG (V : Type) where
  | val (v : V)
  | ctx (c : CtxtG V)
  | exprE (e : Expr)
  | mmE (mmId : Nat)
  | junk (s : String)

/-- interpreter.py `CallFrame`.  `fid` is a model-side identity surrogate for
the Python object identity (referenced by `ReturnContinuationValue` and by
`shift_frame` after the stack has been restructured); every pushed or copied
frame receives a fresh fid. -/
structure CallFrameG (V : Type) where
  name : String
  sequence : List (OpG V)
  spot : Nat
  dataStack : List (DSElemG V)
  context : CtxtG V
  defaultReceiver : V
  cleanup : Option V
  isCleanup : Bool
  cleanupRetain : Option V
  forceUnwind : Bool
  numNonlocalReturns : Nat
  fid : Nat

/-- interpreter.py `RuntimeState`.  The call stack is stored top-first (the
Python list has its top at the end); `nextFid` is the model-side counter
backing fresh frame identities. -/
structure RStateG (V : Type) where
  callStack : List (CallFrameG V)
  panicValue : Option V
  nextFid : Nat

/-- interpreter.py `Value`, the tagged union of runtime values.
`returnCont` holds the identity (fid) of its target frame, as
`ReturnContinuationValue.return_to` holds an object reference.  A type object
is its store id; a dataclass instance holds its type id and slot values. -/
inductive Value where
  | num (n : Int)
  | str (s : String)
  | bool (b : Bool)
  | null
  | symbol (sym : String)
  | tuple (components : List Value)
  | vector (components : List Value)
  | quote (q : QuoteG Value)
  | continuation (st : RStateG Value)
  | returnCont (fid : Nat)
  | typeV (t : Nat)
  | dataclassV (t : Nat) (values : List Value)

abbrev Op := OpG Value
abbrev Quote := QuoteG Value
abbrev CompiledBody := CompiledBodyG Value
abbrev Ctxt := CtxtG Value
abbrev DSElem := DSElemG Value
abbrev CallFrame := CallFrameG Value
abbrev RState := RStateG Value

def Quote.parameters : Quote → List String
  | .mk p _ _ => p

def Quote.compiledBody : Quote → CompiledBody
  | .mk _ cb _ => cb

def Quote.ctxt : Quote → Option Ctxt
  | .mk _ _ c => c

def CompiledBody.body : CompiledBody → Expr
  | .mk b _ _ => b

def CompiledBody.bytecode : CompiledBody → Option (List Op)
  | .mk _ bc _ => bc

def CompiledBody.compCtxt : CompiledBody → CompCtxt
  | .mk _ _ cc => cc

/-- `type_of` (interpreter.py 261-287), as a map to type ids of `baseStore`.
The `isinstance(value, TypeValue)` branch precedes the `DataclassTypeValue`
branch in the source, so every type object (dataclass types included) reports
`Type` (id 10) and the `DataclassType` entry is unreachable.  A dataclass
instance reports its own type. -/
def typeOf : Value → Nat
  | .num _ => 0
  | .str _ => 1
  | .bool _ => 2
  | .null => 3
  | .symbol _ => 4
  | .tuple _ => 6
  | .vector _ => 5
  | .quote _ => 7
  | .continuation _ => 8
  | .returnCont _ => 9
  | .typeV _ => 10
  | .dataclassV t _ => t

/-! ## Parameter matchers and multimethods (interpreter.py 425-598) -/

/-- Parameter matchers.  A `ParameterValueMatcher` holds a `Value` matched by
object identity (`arg is self.param_value`); the only reachable registration
(builtin.py `define_dataclass`, the constructor method) stores a type object,
so the embedded value matcher carries a type id and identity is id equality. -/
inductive Matcher where
  | anyM
  | typeM (t : Nat)
  | valueM (t : Nat)
deriving Repr, DecidableEq

/-- `ParameterMatcher.matches` for each matcher kind (interpreter.py
430-460). -/
def Matcher.matchesV (s : Store) : Matcher → Value → Bool
  | .anyM, _ => true
  | .typeM t, arg => isSubtype s (typeOf arg) t
  | .valueM t, arg =>
    match arg with
    | .typeV u => u == t
    | _ => false

/-- `matcher_lte` (interpreter.py 495-522): value < type < any; type matchers
ordered by `is_subtype`; value matchers compared by identity; any-matchers all
equal. -/
def matcherLte (s : Store) (a b : Matcher) : Bool :=
  match b with
  | .anyM => true
  | .typeM tb =>
    match a with
    | .anyM => false
    | .typeM ta => isSubtype s ta tb
    | .valueM _ => true
  | .valueM vb =>
    match a with
    | .anyM => false
    | .typeM _ => false
    | .valueM va => va == vb

/-- A `Method` (interpreter.py 487-490): matchers (receiver first) plus a
body.  The dispatch claims never inspect the body; it is carried as a tag
(distinct bodies get distinct tags), preserving structural equality. -/
structure MethodM where
  paramMatchers : List Matcher
  bodyTag : Nat
deriving Repr, DecidableEq

/-- `method_lte` (interpreter.py 527-529): pointwise `matcher_lte`.  The
source asserts equal lengths; `zip` truncates on (assert-violating) unequal
lengths. -/
def methodLte (s : Store) (a b : MethodM) : Bool :=
  (a.paramMatchers.zip b.paramMatchers).all (fun p => matcherLte s p.1 p.2)

/-- A raised `SignalError`'s condition name (the message text is dropped). -/
structure SignalErr where
  conditionName : String
deriving Repr, DecidableEq

/-- `list.index` (used as the sort key in `select_method`): position of the
first structurally equal element.  The source raises on a missing element;
that is unreachable since only members are looked up. -/
def idxOf (l : List MethodM) (m : MethodM) : Nat :=
  match l with
  | [] => 0
  | x :: xs => if x = m then 0 else idxOf xs m + 1

/-- Python `min(xs, key)` on a nonempty list: keeps the earliest element on
ties (replacement only on strict decrease). -/
def minByKeyNE (key : MethodM → Nat) (x : MethodM) (xs : List MethodM) : MethodM :=
  xs.foldl (fun best y => if key y < key best then y else best) x

/-- `MultiMethod.select_method` (interpreter.py 571-598): filter to methods
whose matchers all match; 1 candidate is returned directly, 0 signals
`no-matching-method`, several take the minimum by sorted-list index and check
it against every candidate, else `ambiguous-method-resolution`. -/
def selectMethod (s : Store) (methods : List MethodM) (args : List Value) :
    Except SignalErr MethodM :=
  let options := methods.filter (fun m =>
    (args.zip m.paramMatchers).all (fun p => p.2.matchesV s p.1))
  match options with
  | [m] => .ok m
  | [] => .error ⟨"no-matching-method"⟩
  | m1 :: m2 :: rest =>
    let candidate := minByKeyNE (idxOf methods) m1 (m2 :: rest)
    if (m1 :: m2 :: rest).all (fun o => methodLte s candidate o) then .ok candidate
    else .error ⟨"ambiguous-method-resolution"⟩

/-- The claim's wording of `select_method`: the candidate is the option
*earliest in sorted-list position*, i.e. the first element of the filtered
list (the filter preserves list order).  Stated from the spec's words for
comparison with the source's `selectMethod`. -/
def selectMethodSpec (s : Store) (methods : List MethodM) (args : List Value) :
    Except SignalErr MethodM :=
  let options := methods.filter (fun m =>
    (args.zip m.paramMatchers).all (fun p => p.2.matchesV s p.1))
  match options with
  | [m] => .ok m
  | [] => .error ⟨"no-matching-method"⟩
  | m1 :: m2 :: rest =>
    if (m1 :: m2 :: rest).all (fun o => methodLte s m1 o) then .ok m1
    else .error ⟨"ambiguous-method-resolution"⟩

/-- The insertion loop of `add_method` (interpreter.py 558-566): insert before
the first existing method the new one is ≤, else append. -/
def insertBeforeFirstLte (s : Store) (m : MethodM) : List MethodM → List MethodM
  | [] => [m]
  | x :: xs => if methodLte s m x then m :: x :: xs else x :: insertBeforeFirstLte s m xs

/-- `MultiMethod.add_method` (interpreter.py 541-569): reject an exact
duplicate matcher tuple, else insert sorted.  The final invalidation loop over
`compilations_to_invalidate` marks dependent compiled bodies and is outside
the list-order claim. -/
def addMethod (s : Store) (methods : List MethodM) (m : MethodM) :
    Except String (List MethodM) :=
  if methods.any (fun ex => m.paramMatchers == ex.paramMatchers) then
    .error "Method signature already exists"
  else
    .ok (insertBeforeFirstLte s m methods)

/-- The sort invariant claimed for `add_method`: whenever a later method is at
least as specific as an earlier one, they are the same method — equivalently,
a strictly-more-specific method never appears after a less specific one. -/
def specSorted (s : Store) (ms : List MethodM) : Prop :=
  ms.Pairwise (fun a b => methodLte s b a = true → b = a)

/-- No two methods of the list share a matcher tuple (the invariant enforced
by `add_method`'s duplicate check). -/
def nodupSigs (ms : List MethodM) : Prop :=
  ms.Pairwise (fun a b => a.paramMatchers ≠ b.paramMatchers)

instance (s : Store) (ms : List MethodM) : Decidable (specSorted s ms) := by
  unfold specSorted; exact List.instDecidablePairwise ms

instance (ms : List MethodM) : Decidable (nodupSigs ms) := by
  unfold nodupSigs; exact List.instDecidablePairwise ms

/-- Single-parameter methods with type matchers over the stale store of
`c1Setup` (ids: A = 12, T = 13, U = 15).  Over `c1Store`, `is_subtype` gives
A ≤ T and T ≤ U but not A ≤ U. -/
def mA : MethodM := ⟨[.typeM 12], 0⟩

def mT : MethodM := ⟨[.typeM 13], 1⟩

def mU : MethodM := ⟨[.typeM 15], 2⟩

/-! ## The compiler (interpreter.py Compiler / CompiledBody)

`exprSize` and friends are termination measures for the mutual recursion below
(no source counterpart; the Python recursion terminates structurally). -/

mutual
def exprSize : Expr → Nat
  | .unaryOp _ a => exprSize a + 10
  | .binaryOp _ l r => exprSize l + exprSize r + 10
  | .nameE _ => 1
  | .literal _ => 1
  | .unaryMessage t _ => exprSize t + 10
  | .nAryMessage t _ args => exprOptSize t + exprListSize args + 10
  | .paren i => exprSize i + 10
  | .quoteE _ b => exprSize b + 10
  | .dataE cs => exprListSize cs + 10
  | .seqE ps => exprListSize ps + 10
  | .tupleE cs => exprListSize cs + 10

def exprOptSize : Option Expr → Nat
  | none => 0
  | some e => exprSize e + 1

def exprListSize : List Expr → Nat
  | [] => 0
  | e :: rest => exprSize e + 1 + exprListSize rest
end

/-- The isinstance check of the TAIL-CALL hack (interpreter.py 707-716): the
rewritten call must be an op or a message form. -/
def isInvocationForm : Expr → Bool
  | .unaryOp _ _ | .binaryOp _ _ _ | .nameE _ | .unaryMessage _ _ | .nAryMessage _ _ _ => true
  | _ => false

mutual
/-- `Compiler._compile_expr` (interpreter.py 691-828), entry point: the
TAIL-CALL rewriting hack (lines 697-718) runs before the main dispatch.  The
source's Compiler object accumulates `self.sequence`; here each call returns
the ops it would append, in order.  The `multimethod_deps` invalidation edges
do not affect the emitted bytecode and are dropped. -/
def compileExpr : CompCtxt → Expr → Except String (List Op)
  | ctxt, .nAryMessage none ["TAIL-CALL"] (a :: _) => compileTailCall ctxt a
  | _, .nAryMessage (some _) ["TAIL-CALL"] _ => .error "TAIL-CALL: requires no receiver"
  | _, .nAryMessage none ["TAIL-CALL"] [] => .error "TAIL-CALL: missing argument"
  | ctxt, e => compileMain ctxt e false
termination_by _ e => (exprSize e, 3)
decreasing_by
  all_goals simp [exprSize, exprOptSize, exprListSize, Prod.lex_iff]
  all_goals omega

/-- The paren-stripping loop and invocation-form check of the TAIL-CALL hack
(interpreter.py 704-718). -/
def compileTailCall : CompCtxt → Expr → Except String (List Op)
  | ctxt, .paren inner => compileTailCall ctxt inner
  | ctxt, e =>
    if isInvocationForm e then compileMain ctxt e true
    else .error "TAIL-CALL: must be applied to an op or message"
termination_by _ e => (exprSize e, 2)
decreasing_by
  all_goals simp [exprSize, exprOptSize, exprListSize, Prod.lex_iff]

/-- The main dispatch of `_compile_expr` (interpreter.py 766-828), with the
tail-call flag already resolved.  The quote branch mirrors lines 796-811:
the body compilation context binds the parameter names (default `it`) as
UndeterminedValues over the current context, and `CompiledBody.__post_init__`
compiles the body eagerly (see `mkCompiledBody`), so the emitted push-closure
carries present bytecode. -/
def compileMain : CompCtxt → Expr → Bool → Except String (List Op)
  | ctxt, .unaryOp op arg, tailCall => compileInvocation ctxt op (some arg) [] tailCall
  | ctxt, .binaryOp op l r, tailCall => compileInvocation ctxt (op ++ ":") (some l) [r] tailCall
  | ctxt, .nameE n, tailCall => compileInvocation ctxt n none [] tailCall
  | _, .literal (.symbolLit s), _ => .ok [OpG.pushValue (.symbol s)]
  | _, .literal (.numberLit n), _ => .ok [OpG.pushValue (.num n)]
  | _, .literal (.stringLit s), _ => .ok [OpG.pushValue (.str s)]
  | ctxt, .unaryMessage tgt msg, tailCall => compileInvocation ctxt msg (some tgt) [] tailCall
  | ctxt, .nAryMessage tgt msgs args, tailCall =>
    compileInvocation ctxt (String.join (msgs.map (fun m => m ++ ":"))) tgt args tailCall
  | ctxt, .paren inner, _ => compileExpr ctxt inner
  | ctxt, .quoteE parameters body, _ =>
    let paramNames := if parameters.isEmpty then ["it"] else parameters
    let bodyCtxt := CompCtxt.mk (paramNames.map (fun p => (p, CSlot.undeterminedValue))) (some ctxt)
    (compileExpr bodyCtxt body).map (fun bc =>
      [OpG.pushClosure (QuoteG.mk parameters (CompiledBodyG.mk body (some bc) bodyCtxt) none)])
  | ctxt, .dataE comps, _ =>
    (compileList ctxt comps).map (fun ops => ops ++ [OpG.componentsToVector comps.length])
  | _, .seqE [], _ => .error "empty sequence"
  | ctxt, .seqE (p :: rest), _ => compileSeq ctxt p rest
  | ctxt, .tupleE comps, _ =>
    (compileList ctxt comps).map (fun ops => ops ++ [OpG.componentsToTuple comps.length])
termination_by _ e _ => (exprSize e, 0)
decreasing_by
  all_goals simp [exprSize, exprOptSize, exprListSize, Prod.lex_iff]
  all_goals omega

/-- `compile_invocation` (interpreter.py 721-764): resolve the message in the
compilation context, then emit by slot kind.  The receiver is the source's
`args[0]`, the only optional position.  A compile-time handler runs arbitrary
host registration code and is outside the embedded fragment (no embedded claim
compiles one); looking one up reports an error here. -/
def compileInvocation (ctxt : CompCtxt) (message : String) (receiver : Option Expr)
    (args : List Expr) (tailCall : Bool) : Except String (List Op) :=
  match ctxt.lookup message with
  | none => .error ("Could not compile: unknown slot " ++ message)
  | some CSlot.compileTimeHandler => .error ("compile-time handler: " ++ message)
  | some CSlot.undeterminedValue =>
    if receiver.isSome || !args.isEmpty then
      .error "Could not compile: local slot is an undetermined-value"
    else .ok [OpG.getSlot message]
  | some CSlot.value =>
    if receiver.isSome || !args.isEmpty then
      .error "Could not compile: slot is not a method"
    else .ok [OpG.getSlot message]
  | some CSlot.undeterminedMethod | some CSlot.multimethod => do
    let rops ← compileReceiver ctxt receiver
    let aops ← compileList ctxt args
    .ok (rops ++ aops ++
      [if tailCall then OpG.tailInvokeOp message (args.length + 1)
       else OpG.invokeOp message (args.length + 1)])
termination_by (exprOptSize receiver + exprListSize args, 1)
decreasing_by
  all_goals simp [exprSize, exprOptSize, exprListSize, Prod.lex_iff]
  all_goals omega

/-- The receiver position of an invocation: an elided receiver compiles to
push-default-receiver (interpreter.py 743-747). -/
def compileReceiver : CompCtxt → Option Expr → Except String (List Op)
  | _, none => .ok [OpG.pushDefaultReceiver]
  | ctxt, some r => compileExpr ctxt r
termination_by _ r => (exprOptSize r, 0)
decreasing_by
  all_goals simp [exprSize, exprOptSize, exprListSize, Prod.lex_iff]

/-- Sequencing (interpreter.py 816-822): every part's result but the last is
dropped. -/
def compileSeq : CompCtxt → Expr → List Expr → Except String (List Op)
  | ctxt, p, [] => compileExpr ctxt p
  | ctxt, p, q :: qs => do
    let ops ← compileExpr ctxt p
    let tailOps ← compileSeq ctxt q qs
    .ok (ops ++ [OpG.dropOp] ++ tailOps)
termination_by _ p rest => (exprSize p + exprListSize rest + 1, 0)
decreasing_by
  all_goals simp [exprSize, exprOptSize, exprListSize, Prod.lex_iff]
  all_goals omega

/-- Left-to-right compilation of a list of expressions (message arguments and
vector/tuple components). -/
def compileList : CompCtxt → List Expr → Except String (List Op)
  | _, [] => .ok []
  | ctxt, e :: rest => do
    let ops ← compileExpr ctxt e
    let restOps ← compileList ctxt rest
    .ok (ops ++ restOps)
termination_by _ l => (exprListSize l, 0)
decreasing_by
  all_goals simp [exprSize, exprOptSize, exprListSize, Prod.lex_iff]
  all_goals omega
end

/-- `CompiledBody(body, bytecode=None, comp_ctxt)` construction including
`__post_init__` (interpreter.py 634-662): `maybe_recompile` runs immediately
on construction, so the body is compiled eagerly and the stored bytecode is
present from creation (`None` only after a later invalidation). -/
def mkCompiledBody (body : Expr) (cc : CompCtxt) : Except String CompiledBody :=
  (compileExpr cc body).map (fun bc => CompiledBodyG.mk body (some bc) cc)

/-- `CompiledBody.maybe_recompile` (interpreter.py 650-662): return the cached
bytecode, recompiling the body in the stored compilation context when the body
was invalidated.  (The source also caches the recompilation and re-registers
invalidation dependencies; neither affects the returned bytecode.) -/
def maybeRecompile (cb : CompiledBody) : Except String (List Op) :=
  match cb with
  | .mk body bc cc =>
    match bc with
    | some b => .ok b
    | none => compileExpr cc body

/-! ## The virtual machine (interpreter.py 952-1709) -/

/-- Host-level exceptions escaping the embedded VM functions (`ValueError`,
`NotImplementedError`, assertion failures, compile errors from
`maybe_recompile`).  At an `invoke` boundary the source converts these into
`internal-error` conditions; condition signaling is outside the embedded
claims. -/
inductive VMErr where
  | valueError (msg : String)
  | notImplemented
  | assertFail (msg : String)
  | invokeNotEmbedded (message : String) (nargs : Nat)
  | compileError (msg : String)
deriving Repr, DecidableEq

/-- `CallFrame.copy` (interpreter.py 400-415): a fresh frame object with the
data stack copied shallowly and every other field carried over
(`num_nonlocal_returns` included, as the source TODO notes).  The fresh object
identity is the supplied fid. -/
def copyFrame (fid : Nat) (f : CallFrame) : CallFrame := { f with fid := fid }

/-- Per-frame copy of a call stack (the list comprehensions in
`intrinsic__call_cc` and the Continuation branch of `call_impl`), assigning
each copy a fresh identity. -/
def copyStackFrom (fid : Nat) : List CallFrame → List CallFrame
  | [] => []
  | f :: rest => copyFrame fid f :: copyStackFrom (fid + 1) rest

/-- Forgets a frame's identity: two frames with equal `frameCore` agree on
every source-level field (pc, data stack, context, receiver, flags, counts). -/
def frameCore (f : CallFrame) : CallFrame := { f with fid := 0 }

/-- `shift_frame` applied to a frame found by identity after the stack has
been restructured (the hack at interpreter.py 1568-1571): increments the spot
of every frame carrying the given fid (fids are unique in reachable states). -/
def shiftByFid (fid : Nat) : List CallFrame → List CallFrame
  | [] => []
  | f :: rest =>
    (if f.fid == fid then { f with spot := f.spot + 1 } else f) :: shiftByFid fid rest

/-- The frame `invoke_compiled` pushes: fresh identity, pc 0, empty data
stack (the CallFrame construction at interpreter.py 1291-1305). -/
def newFrameFor (state : RState) (name : String) (code : List Op) (ctxt : Ctxt)
    (defaultReceiver : Value) (cleanup : Option Value) (isCleanup : Bool)
    (cleanupRetain : Option Value) : CallFrame :=
  { name := name, sequence := code, spot := 0, dataStack := [], context := ctxt,
    defaultReceiver := defaultReceiver, cleanup := cleanup, isCleanup := isCleanup,
    cleanupRetain := cleanupRetain, forceUnwind := false, numNonlocalReturns := 0,
    fid := state.nextFid }

/-- `invoke_compiled` (interpreter.py 1238-1305): push a new frame for `code`.
A requested tail call is demoted to a normal call unless the caller sits at
its last instruction, is not a cleanup, has no cleanup attached and has no
live return continuations; a permitted tail call pops the caller before the
push.  An `is_cleanup` push leaves the caller's spot alone; any other non-tail
push advances it.  The asserts are call-site preconditions; the demotion
warning print is dropped. -/
def invokeCompiled (state : RState) (name : String) (code : List Op) (ctxt : Ctxt)
    (defaultReceiver : Value) (cleanup : Option Value) (isCleanup : Bool)
    (cleanupRetain : Option Value) (tailCall : Bool) : RState :=
  let newFrame : CallFrame :=
    newFrameFor state name code ctxt defaultReceiver cleanup isCleanup cleanupRetain
  match state.callStack with
  | [] => { state with callStack := [newFrame], nextFid := state.nextFid + 1 }
  | frame :: rest =>
    let demote := (frame.spot != frame.sequence.length - 1) || frame.isCleanup ||
      frame.cleanup.isSome || (frame.numNonlocalReturns != 0)
    if tailCall && !demote then
      { state with callStack := newFrame :: rest, nextFid := state.nextFid + 1 }
    else if isCleanup then
      { state with callStack := newFrame :: frame :: rest, nextFid := state.nextFid + 1 }
    else
      let frame2 := { frame with spot := frame.spot + 1 }
      { state with callStack := newFrame :: frame2 :: rest, nextFid := state.nextFid + 1 }

/-- The force-unwind marking loop of the ReturnContinuation branch of
`call_impl` (interpreter.py 1536-1545), walking from the top of the stack:
every frame above the target is marked `force_unwind` unless it is running a
cleanup; the walk stops at the target, whose live-reference count is
decremented (the decrement at line 1537 targets the same frame). -/
def markUnwindTo (fid : Nat) : List CallFrame → List CallFrame
  | [] => []
  | f :: rest =>
    if f.fid == fid then { f with numNonlocalReturns := f.numNonlocalReturns - 1 } :: rest
    else (if f.isCleanup then f else { f with forceUnwind := true }) :: markUnwindTo fid rest

/-- `call_impl` (interpreter.py 1464-1574), the shared implementation of
`call` / `call:` / `call*:` and of cleanup-action invocation.

* Quote receiver: zero declared parameters accept 0 or 1 arguments through an
  implicit `it` (the single argument doubling as default receiver); the
  quote's bytecode (recompiled if invalidated) is pushed as a new frame whose
  context binds the parameters over the quote's captured context.
* Continuation receiver: the VM's entire call stack is replaced by a fresh
  per-frame copy of the snapshot and the argument is pushed onto the new top
  frame's data stack; nothing is shifted and the snapshot itself is a value
  that the operation reads but never writes.
* ReturnContinuation receiver: the target frame is looked up by identity below
  the top; frames above it are marked to force-unwind (cleanups excepted), the
  argument is pushed and the top frame shifted.
* Any other receiver: the receiver itself is pushed as the call's result and
  the top frame shifted; an attached cleanup still runs, retaining the
  receiver, after which the original frame is shifted wherever it now sits.

Python exceptions are `Except.error`. -/
def callImpl (message : String) (state : RState) (receiver : Value)
    (args : List Value) (cleanup : Option Value) (isCleanup : Bool)
    (cleanupRetain : Option Value) (tailCall : Bool) : Except VMErr RState :=
  match receiver with
  | .quote (.mk parameters compiledBody qctxt) =>
    let special := parameters.isEmpty && args.length ≤ 1
    if !special && parameters.length != args.length then
      .error (.valueError (message ++ " receiver (a quote) has mismatched parameters"))
    else
      let paramNames := if special then ["it"] else parameters
      let defaultReceiver := if special then args.headD .null else Value.null
      let args1 := if special then [args.headD .null] else args
      match maybeRecompile compiledBody with
      | .error e => .error (.compileError e)
      | .ok bytecode =>
        let newSlots := (paramNames.zip args1).map (fun p => (p.1, Sum.inl p.2))
        .ok (invokeCompiled state message bytecode (CtxtG.mk newSlots qctxt)
          defaultReceiver cleanup isCleanup cleanupRetain tailCall)
  | .continuation cont =>
    if cleanup.isSome || isCleanup then .error .notImplemented
    else
      match args with
      | [arg] =>
        match copyStackFrom state.nextFid cont.callStack with
        | [] => .error (.assertFail "empty continuation stack")
        | top :: rest =>
          let top2 := { top with dataStack := .val arg :: top.dataStack }
          .ok { state with callStack := top2 :: rest, nextFid := state.nextFid + cont.callStack.length }
      | _ => .error (.valueError (message ++ " receiver (a continuation) requires 1 parameter"))
  | .returnCont fid =>
    if cleanup.isSome || isCleanup then .error .notImplemented
    else
      match args with
      | [arg] =>
        match state.callStack with
        | [] => .error (.valueError (message ++ " receiver (a return-continuation) is no longer in scope"))
        | top :: below =>
          if below.any (fun f => f.fid == fid) then
            match markUnwindTo fid (top :: below) with
            | t :: rest =>
              let t2 := { t with dataStack := .val arg :: t.dataStack, spot := t.spot + 1 }
              .ok { state with callStack := t2 :: rest }
            | [] => .error (.assertFail "unreachable")
          else
            .error (.valueError (message ++ " receiver (a return-continuation) is no longer in scope"))
      | _ => .error (.valueError (message ++ " receiver (a return-continuation) requires 1 parameter"))
  | _ =>
    match cleanup with
    | some cl =>
      match state.callStack with
      | [] => .error (.assertFail "no call frame")
      | frame :: _ =>
        (callImpl "call" state cl [] none true (some receiver) false).map
          (fun s => { s with callStack := shiftByFid frame.fid s.callStack })
    | none =>
      match state.callStack with
      | [] => .error (.assertFail "no call frame")
      | top :: rest =>
        let top2 := { top with dataStack := .val receiver :: top.dataStack, spot := top.spot + 1 }
        .ok { state with callStack := top2 :: rest }
termination_by (if cleanup.isSome then 1 else 0 : Nat)
decreasing_by
  simp

/-- `intrinsic__call` (interpreter.py 1577-1587). -/
def intrinsicCall (state : RState) (tailCall : Bool) (receiver : Value) :
    Except VMErr RState :=
  callImpl "call" state receiver [] none false none tailCall

/-- `intrinsic__call_` (interpreter.py 1590-1600), the `call:` intrinsic. -/
def intrinsicCallWith (state : RState) (tailCall : Bool) (receiver value : Value) :
    Except VMErr RState :=
  callImpl "call:" state receiver [value] none false none tailCall

/-- `intrinsic__call_star_` (interpreter.py 1603-1616), `call*:` (the source
asserts a tuple argument). -/
def intrinsicCallStar (state : RState) (tailCall : Bool) (receiver value : Value) :
    Except VMErr RState :=
  match value with
  | .tuple comps => callImpl "call*:" state receiver comps none false none tailCall
  | _ => .error (.assertFail "call*: expects a tuple")

/-- `intrinsic__call_cc` (interpreter.py 1619-1635): capture a deep,
independent per-frame copy of the live call stack (pc and data stack copied;
contexts and values shared) as a Continuation, then call the receiver with
it. -/
def intrinsicCallCC (state : RState) (tailCall : Bool) (receiver : Value) :
    Except VMErr RState :=
  let snapshot : RState :=
    { callStack := copyStackFrom state.nextFid state.callStack,
      panicValue := state.panicValue,
      nextFid := state.nextFid + state.callStack.length }
  callImpl "call/cc" { state with nextFid := snapshot.nextFid } receiver
    [.continuation snapshot] none false none tailCall

/-- `intrinsic__cleanup_` (interpreter.py 1638-1650), `cleanup:`: invoke the
receiver with the cleanup value attached to the frame about to be pushed. -/
def intrinsicCleanupWith (state : RState) (tailCall : Bool) (receiver cleanupV : Value) :
    Except VMErr RState :=
  callImpl "cleanup:" state receiver [] (some cleanupV) false none tailCall

/-- `intrinsic__call_rc` (interpreter.py 1653-1666): build a
ReturnContinuation holding the identity of the current top frame, increment
the frame's live-reference count, and call the receiver with it. -/
def intrinsicCallRC (state : RState) (tailCall : Bool) (receiver : Value) :
    Except VMErr RState :=
  match state.callStack with
  | [] => .error (.assertFail "no call frame")
  | top :: rest =>
    callImpl "call/rc"
      { state with
        callStack := { top with numNonlocalReturns := top.numNonlocalReturns + 1 } :: rest }
      receiver [.returnCont top.fid] none false none tailCall

/-- The marking `panic!:` applies to every frame (interpreter.py 1672-1674):
force unwinding, except for frames actively running a cleanup. -/
def panicMark (f : CallFrame) : CallFrame :=
  if f.isCleanup then f else { f with forceUnwind := true }

/-- `intrinsic__panic_` (interpreter.py 1669-1679): mark every non-cleanup
frame for unwinding, push the source's placeholder host string, set the panic
value and shift the top frame.  (The stack-trace print is dropped.) -/
def intrinsicPanicWith (state : RState) (tailCall : Bool) (receiver value : Value) :
    Except VMErr RState :=
  match state.callStack.map panicMark with
  | [] => .error (.assertFail "no call frame")
  | top :: rest =>
    let top2 := { top with dataStack := .junk "<this value must not be used!>" :: top.dataStack, spot := top.spot + 1 }
    .ok { state with callStack := top2 :: rest, panicValue := some value }

/-- `intrinsic__if_then_else` (interpreter.py 1442-1461): a Quote branch is
invoked (never as a tail call), any other branch value is pushed directly.  A
quote uninitialized by push-closure (context still `None`) is unreachable. -/
def intrinsicIfThenElse (state : RState) (tailCall : Bool)
    (receiver cond tbody fbody : Value) : Except VMErr RState :=
  let body := match cond with
    | .bool true => tbody
    | _ => fbody
  match body with
  | .quote (.mk _ cb qctxt) =>
    match maybeRecompile cb with
    | .error e => .error (.compileError e)
    | .ok bytecode =>
      match qctxt with
      | none => .error (.assertFail "quote without context")
      | some c =>
        .ok (invokeCompiled state "<a quote>" bytecode c .null none false none false)
  | other =>
    match state.callStack with
    | [] => .error (.assertFail "no call frame")
    | top :: rest =>
      let top2 := { top with dataStack := .val other :: top.dataStack, spot := top.spot + 1 }
      .ok { state with callStack := top2 :: rest }

/-- The context walk shared by `get-slot` and the invoke path
(interpreter.py 1008-1014): innermost-outermost slot lookup. -/
def ctxtGet : Ctxt → String → Option (Sum Value Nat)
  | .mk slots base, s =>
    match slots.find? (fun p => p.1 == s) with
    | some p => some p.2
    | none =>
      match base with
      | some b => ctxtGet b s
      | none => none

/-- Whether a context's own (innermost) slot map binds a name (the
`create-slot` assert at interpreter.py 1021). -/
def ctxtHasOwn : Ctxt → String → Bool
  | .mk slots _, s => slots.any (fun p => p.1 == s)

/-- Adds a binding to a context's own slot map (`create-slot`,
interpreter.py 1024).  The source mutates the shared context object in place;
the embedding rebuilds the frame's context (no embedded claim reads a context
through an alias). -/
def ctxtAddOwn : Ctxt → String → Sum Value Nat → Ctxt
  | .mk slots base, s, v => .mk (slots ++ [(s, v)]) base

/-- Pops `n` data-stack elements as Values, returned bottom-to-top (the
Python slice `data_stack[len - n :]`); `none` when an element is not a Value
(unreachable for compiled component expressions). -/
def popVals (n : Nat) (ds : List DSElem) : Option (List Value × List DSElem) :=
  match n with
  | 0 => some ([], ds)
  | n + 1 =>
    match ds with
    | .val v :: rest => (popVals n rest).map (fun p => (p.1 ++ [v], p.2))
    | _ => none

/-- `eval_one_op` (interpreter.py 952-1235).  The returning transition (spot
at the end of the sequence, or force-unwind set) follows lines 961-999: the
return value is the frame's `cleanup_retain` for a cleanup frame, else its
data-stack top; the frame is popped; an attached cleanup action is then
invoked through `call_impl` as a fresh is-cleanup frame retaining that value,
otherwise the value is pushed to the new top frame.  The bytecode ops follow
lines 1001-1235.  The `invoke`/`tail-invoke` op performs context lookup,
dispatch and condition signaling (lines 1047-1213); its constituents are
embedded separately (`selectMethod`, `callImpl`, `invokeCompiled`, the
intrinsics) and no embedded claim steps through an `invoke` op, so executing
one here reports `invokeNotEmbedded`. -/
def evalOneOp (state : RState) : Except VMErr RState :=
  match state.callStack with
  | [] => .error (.assertFail "empty call stack")
  | frame :: rest =>
    if frame.spot == frame.sequence.length || frame.forceUnwind then
      let rvOpt : Option Value :=
        if frame.isCleanup then frame.cleanupRetain
        else
          match frame.dataStack with
          | .val v :: _ => some v
          | _ => none
      match rvOpt with
      | none => .error (.assertFail "return value")
      | some returnValue =>
        match frame.cleanup with
        | some cleanupAction =>
          callImpl "call" { state with callStack := rest } cleanupAction [] none true
            (some returnValue) false
        | none =>
          match rest with
          | [] => .error (.assertFail "returning from the last frame")
          | nf :: rest2 =>
            let nf2 := { nf with dataStack := .val returnValue :: nf.dataStack }
            .ok { state with callStack := nf2 :: rest2 }
    else
      match frame.sequence.get? frame.spot with
      | none => .error (.assertFail "spot out of range")
      | some (OpG.getSlot slot) =>
        match ctxtGet frame.context slot with
        | none => .error (.assertFail "get-slot: compilation issue")
        | some (Sum.inl v) =>
          let frame2 := { frame with dataStack := .val v :: frame.dataStack, spot := frame.spot + 1 }
          .ok { state with callStack := frame2 :: rest }
        | some (Sum.inr m) =>
          let frame2 := { frame with dataStack := .mmE m :: frame.dataStack, spot := frame.spot + 1 }
          .ok { state with callStack := frame2 :: rest }
      | some (OpG.createSlot slot) =>
        if ctxtHasOwn frame.context slot then .error (.assertFail "create-slot: already defined")
        else
          match frame.dataStack with
          | .val v :: _ =>
            let frame2 := { frame with context := ctxtAddOwn frame.context slot (Sum.inl v), spot := frame.spot + 1 }
            .ok { state with callStack := frame2 :: rest }
          | .mmE m :: _ =>
            let frame2 := { frame with context := ctxtAddOwn frame.context slot (Sum.inr m), spot := frame.spot + 1 }
            .ok { state with callStack := frame2 :: rest }
          | _ => .error (.assertFail "create-slot: no value")
      | some OpG.pushDefaultReceiver =>
        let frame2 := { frame with dataStack := .val frame.defaultReceiver :: frame.dataStack, spot := frame.spot + 1 }
        .ok { state with callStack := frame2 :: rest }
      | some (OpG.pushValue v) =>
        let frame2 := { frame with dataStack := .val v :: frame.dataStack, spot := frame.spot + 1 }
        .ok { state with callStack := frame2 :: rest }
      | some (OpG.pushClosure q) =>
        match q with
        | .mk parameters cb qctxt =>
          match qctxt with
          | some _ => .error (.assertFail "push-closure: context already set")
          | none =>
            let closure := Value.quote (.mk parameters cb (some frame.context))
            let frame2 := { frame with dataStack := .val closure :: frame.dataStack, spot := frame.spot + 1 }
            .ok { state with callStack := frame2 :: rest }
      | some (OpG.invokeOp message nargs) => .error (.invokeNotEmbedded message nargs)
      | some (OpG.tailInvokeOp message nargs) => .error (.invokeNotEmbedded message nargs)
      | some (OpG.componentsToVector n) =>
        match popVals n frame.dataStack with
        | none => .error (.assertFail "components: not enough values")
        | some (comps, ds2) =>
          let frame2 := { frame with dataStack := .val (.vector comps) :: ds2, spot := frame.spot + 1 }
          .ok { state with callStack := frame2 :: rest }
      | some (OpG.componentsToTuple n) =>
        match popVals n frame.dataStack with
        | none => .error (.assertFail "components: not enough values")
        | some (comps, ds2) =>
          let frame2 := { frame with dataStack := .val (.tuple comps) :: ds2, spot := frame.spot + 1 }
          .ok { state with callStack := frame2 :: rest }
      | some OpG.dropOp =>
        match frame.dataStack with
        | [] => .error (.assertFail "drop: empty data stack")
        | _ :: ds2 =>
          let frame2 := { frame with dataStack := ds2, spot := frame.spot + 1 }
          .ok { state with callStack := frame2 :: rest }

/-! ## Concrete artifacts used to instantiate the theorems -/

/-- An empty runtime context. -/
def emptyCtxt : Ctxt := .mk [] none

/-- An empty compilation context. -/
def emptyCompCtxt : CompCtxt := .mk [] none

/-- A compiled parameterless quote `[ 1 ]` (as push-closure would produce it,
context filled in), usable e.g. as a cleanup action. -/
def wQuote : Quote :=
  .mk [] (CompiledBodyG.mk (.literal (.numberLit 1)) (some [OpG.pushValue (.num 1)])
    (CompCtxt.mk [("it", CSlot.undeterminedValue)] (some emptyCompCtxt))) (some emptyCtxt)

/-- A small concrete frame builder for witnesses. -/
def wFrame (ops : List Op) (spot : Nat) (ds : List DSElem) (cl : Option Value)
    (isCl : Bool) (ret : Option Value) (fu : Bool) (nlr fid : Nat) : CallFrame :=
  { name := "w", sequence := ops, spot := spot, dataStack := ds, context := emptyCtxt,
    defaultReceiver := .null, cleanup := cl, isCleanup := isCl, cleanupRetain := ret,
    forceUnwind := fu, numNonlocalReturns := nlr, fid := fid }

/-- A state whose single frame sits at its last instruction (tail-call
eligible). -/
def wTailState : RState :=
  ⟨[wFrame [OpG.dropOp, OpG.dropOp] 1 [] none false none false 0 0], none, 1⟩

/-- A state whose top frame has returned a value (42) and carries a cleanup
action. -/
def wCleanupState : RState :=
  ⟨[wFrame [] 0 [.val (.num 42)] (some (.quote wQuote)) false none false 0 0,
    wFrame [OpG.dropOp] 1 [] none false none false 0 1], none, 2⟩

/-- A state whose top frame is a finished cleanup frame retaining 42 (its own
body result, 1, still on its data stack). -/
def wRetainState : RState :=
  ⟨[wFrame [OpG.pushValue (.num 1)] 1 [.val (.num 1)] none true (some (.num 42)) false 0 0,
    wFrame [OpG.dropOp] 1 [] none false none false 0 1], none, 2⟩

/-- A captured snapshot with one frame holding 5 on its data stack. -/
def wSnap : RState :=
  ⟨[wFrame [OpG.dropOp] 0 [.val (.num 5)] none false none false 0 0], none, 1⟩

/-- A simple running state used as the current state of witnesses. -/
def wRunState : RState :=
  ⟨[wFrame [OpG.dropOp, OpG.dropOp] 0 [] none false none false 0 0], none, 1⟩


/-! ## Helper lemmas -/

theorem list_set_get_self {α : Type} (l : List α) (i : Nat) (a : α)
    (h : l.get? i = some a) : l.set i a = l := by
  induction l generalizing i with
  | nil => simp at h
  | cons x xs ih =>
    cases i with
    | zero => simp only [List.get?] at h; cases h; rfl
    | succ n =>
      simp only [List.get?] at h
      simp only [List.set]
      rw [ih n h]

theorem list_get_set_eq {α : Type} (l : List α) (i : Nat) (a : α)
    (h : i < l.length) : (l.set i a).get? i = some a := by
  induction l generalizing i with
  | nil => simp at h
  | cons x xs ih =>
    cases i with
    | zero => rfl
    | succ n =>
      simp only [List.length_cons] at h
      simp only [List.set, List.get?]
      exact ih n (by omega)

theorem list_get_set_ne {α : Type} (l : List α) (i j : Nat) (a : α)
    (h : i ≠ j) : (l.set i a).get? j = l.get? j := by
  induction l generalizing i j with
  | nil => rfl
  | cons x xs ih =>
    cases i with
    | zero =>
      cases j with
      | zero => exact absurd rfl h
      | succ m => rfl
    | succ n =>
      cases j with
      | zero => rfl
      | succ m =>
        simp only [List.set, List.get?]
        exact ih n m (by omega)

theorem get_lt_length {α : Type} (l : List α) (i : Nat) (a : α)
    (h : l.get? i = some a) : i < l.length := by
  by_contra hc
  rw [List.get?_eq_none.mpr (by omega)] at h
  exact Option.noConfusion h

/-! ## C1: is_subtype versus the suffix specification -/

/-- C1 (counterexample): over the reachable type graph of `c1Setup` (dataclass
A, mixins T and X mixed into A, then mixin U mixed into T), `is_subtype(A, T)`
returns true although T's linearization `[T, U]` is not a suffix of A's stale
linearization `[A, T, X]`: the single compared element (T) matches while the
tails differ, so the claimed equivalence fails on a reachable type graph. -/
theorem c1_isSubtype_not_suffix_counterexample :
    ∃ s, c1Setup = some s ∧ isSubtype s 12 13 = true ∧ ¬ linSuffixSpec s 12 13 :=
  ⟨c1Store, by decide, by decide, by decide⟩

/-- C1 (amended): the suffix property implies `is_subtype`: whenever B's
linearization appears head-first as a contiguous suffix of A's linearization
(nonempty, as every linearization is), `is_subtype(A, B)` returns true.  The
converse of the claimed equivalence fails on reachable type graphs whose
cached linearizations have gone stale (see the counterexample). -/
theorem c1_suffix_implies_isSubtype (s : Store) (a b : Nat)
    (hne : linOf s b ≠ []) (hsuf : linSuffixSpec s a b) : isSubtype s a b = true := by
  obtain ⟨pre, hpre⟩ := hsuf
  cases hlb : linOf s b with
  | nil => exact absurd hlb hne
  | cons b0 tl =>
    have hla : linOf s a = pre ++ b0 :: tl := by rw [← hpre, hlb]
    have hlen : (linOf s a).length = pre.length + (b0 :: tl).length := by
      rw [hla, List.length_append]
    have hidx : (linOf s a).length - (b0 :: tl).length = pre.length := by
      rw [hlen]; omega
    have hget : (linOf s a).get? ((linOf s a).length - (b0 :: tl).length) = some b0 := by
      rw [hidx, hla, List.get?_append_right (Nat.le_refl pre.length)]
      simp
    simp only [isSubtype, hlb]
    rw [hget]
    simp [hlen]

/-- C1 witness: the amended implication at a concrete input (`Number` is a
suffix of its own linearization). -/
theorem c1_suffix_witness : isSubtype baseStore 0 0 = true :=
  c1_suffix_implies_isSubtype baseStore 0 0 (by decide) (by decide)

/-! ## C4: try_set_bases rollback -/

/-- C4: when the new bases cannot be linearized (`c3_linearization` raises on
a cycle or a failed merge), `try_set_bases` fails and the resulting store is
exactly the original: the type's prior bases and prior linearization are
untouched and no subtype's linearization has been modified (the failure is
raised inside the `try`, before the subtype loop, and the `except` branch
restores the bases). -/
theorem c4_trySetBases_rollback (s : Store) (t : Nat) (nb : List Nat) (n : TypeNode)
    (hn : s.get? t = some n)
    (hfail : c3lin (s.set t { n with bases := nb }) t = none) :
    trySetBases s t nb = (false, s) := by
  unfold trySetBases
  rw [hn]
  simp only [hfail]
  rw [List.set_set, list_set_get_self s t n hn]

/-- C4 witness: giving `DataclassType` itself as a base is a cycle; the store
is returned unchanged. -/
theorem c4_witness : trySetBases baseStore 11 [11] = (false, baseStore) :=
  c4_trySetBases_rollback baseStore 11 [11] ⟨"DataclassType", [10], true, [11, 10], [], false⟩
    (by decide) (by decide)

/-! ## C3: mixing into a sealed type -/

/-- A `modifyAt` whose function preserves the bases field leaves every node's
bases unchanged. -/
theorem modifyAt_get_bases (s : Store) (st t : Nat) (f : TypeNode → TypeNode)
    (hf : ∀ n, (f n).bases = n.bases) :
    ((s.modifyAt st f).get? t).map TypeNode.bases = (s.get? t).map TypeNode.bases := by
  unfold Store.modifyAt
  cases hs : s.get? st with
  | none => rfl
  | some n =>
    by_cases hts : st = t
    · subst hts
      rw [list_get_set_eq s st (f n) (get_lt_length s st n hs), hs]
      simp [hf]
    · rw [list_get_set_ne s st t (f n) hts]

/-- The subtype re-linearization loop only rewrites linearization fields and
so preserves every node's bases. -/
theorem relinSubtypes_get_bases (l : List Nat) (s : Store) (t : Nat) :
    ((relinSubtypes s l).2.get? t).map TypeNode.bases = (s.get? t).map TypeNode.bases := by
  induction l generalizing s with
  | nil => rfl
  | cons st rest ih =>
    unfold relinSubtypes
    cases c3lin s st with
    | none => rfl
    | some lin =>
      rw [ih]
      exact modifyAt_get_bases s st t _ (fun _ => rfl)

/-- C3 (counterexample): `Number` (id 0) is sealed, yet `mix-in: M to: Number`
does not fail: it succeeds and extends Number's bases with the mixin — the
sealed flag of the target is never consulted by `handle__mix_in_to_` or
`try_set_bases`, so the claim fails at this concrete input. -/
theorem c3_sealed_mixin_counterexample :
    mkMixin baseStore "M" = some (sealedMixStore, 12) ∧
    (baseStore.get? 0).map TypeNode.sealed = some true ∧
    (mixInTo sealedMixStore 12 0).1 = true ∧
    ((mixInTo sealedMixStore 12 0).2.get? 0).map TypeNode.bases = some [12] := by
  refine ⟨by decide, by decide, by decide, by decide⟩

/-- C3 (amended): `mix-in:to:` never enforces sealedness of the *target*: for
a sealed target T and a mixin M, whenever the extended bases list linearizes
(and the subtype re-linearization loop succeeds), the call succeeds and T's
bases become the old bases with M appended.  Sealedness is only enforced where
a type is used as a base of a new dataclass (builtin.py `define_dataclass`),
which raises the definition error instead. -/
theorem c3_mixInTo_ignores_sealed (s : Store) (m t : Nat) (mn tn : TypeNode)
    (lin : List Nat)
    (hm : s.get? m = some mn) (hmx : mn.isMixin = true)
    (ht : s.get? t = some tn) (hseal : tn.sealed = true)
    (hlin : c3lin (s.set t { tn with bases := tn.bases ++ [m] }) t = some lin)
    (hsub : (relinSubtypes
      (s.set t { tn with bases := tn.bases ++ [m], linearization := lin })
      tn.subtypes).1 = true) :
    (mixInTo s m t).1 = true ∧
    ((mixInTo s m t).2.get? t).map TypeNode.bases = some (tn.bases ++ [m]) := by
  unfold mixInTo
  rw [hm, ht]
  simp only [hmx, if_true, Option.elim]
  unfold trySetBases
  rw [ht]
  have hset : (s.set t { tn with bases := tn.bases ++ [m] }).set t
      { tn with bases := tn.bases ++ [m], linearization := lin } =
      s.set t { tn with bases := tn.bases ++ [m], linearization := lin } :=
    List.set_set _ _ _ _
  simp only [hlin, hset]
  constructor
  · exact hsub
  · rw [relinSubtypes_get_bases]
    rw [list_get_set_eq s t _ (get_lt_length s t tn ht)]
    rfl

/-- C3 witness: the amended statement instantiated at the sealed `Number` and
mixin `M`. -/
theorem c3_witness :
    (mixInTo sealedMixStore 12 0).1 = true ∧
    ((mixInTo sealedMixStore 12 0).2.get? 0).map TypeNode.bases = some [12] :=
  c3_mixInTo_ignores_sealed sealedMixStore 12 0 ⟨"M", [], false, [12], [], true⟩
    ⟨"Number", [], true, [0], [], false⟩ [0, 12]
    (by decide) (by decide) (by decide) (by decide) (by decide) (by decide)


/-! ## C5: select_method -/

/-- Python `min` with a key keeps the start element when no later element has
a strictly smaller key. -/
theorem minByKeyNE_eq_head (key : MethodM → Nat) (x : MethodM) (xs : List MethodM)
    (h : ∀ y ∈ xs, ¬ key y < key x) : minByKeyNE key x xs = x := by
  induction xs with
  | nil => rfl
  | cons y ys ih =>
    have hy := h y (List.mem_cons_self y ys)
    show List.foldl _ _ (y :: ys) = x
    simp only [List.foldl_cons, if_neg hy]
    exact ih (fun z hz => h z (List.mem_cons_of_mem y hz))

/-- In a duplicate-free list, the head of a filtered sublist has the smallest
`list.index` among the filtered elements. -/
theorem idxOf_filter_head_le (p : MethodM → Bool) (l : List MethodM) (hnd : l.Nodup) :
    ∀ m1 tl, l.filter p = m1 :: tl → ∀ y ∈ tl, idxOf l m1 ≤ idxOf l y := by
  induction l with
  | nil => intro m1 tl h; simp at h
  | cons a l' ih =>
    intro m1 tl hf y hy
    rw [List.nodup_cons] at hnd
    by_cases hpa : p a
    · rw [List.filter_cons_of_pos hpa] at hf
      have ham1 : a = m1 := (List.cons.injEq _ _ _ _ ▸ hf).1
      subst ham1
      simp [idxOf]
    · rw [List.filter_cons_of_neg hpa] at hf
      have hm1f : m1 ∈ l'.filter p := by rw [hf]; exact List.mem_cons_self _ _
      have hyf : y ∈ l'.filter p := by rw [hf]; exact List.mem_cons_of_mem _ hy
      have hm1 : m1 ∈ l' := List.mem_of_mem_filter hm1f
      have hyl : y ∈ l' := List.mem_of_mem_filter hyf
      have ham1 : ¬ a = m1 := fun h => hnd.1 (h ▸ hm1)
      have hay : ¬ a = y := fun h => hnd.1 (h ▸ hyl)
      have hle := ih hnd.2 m1 tl hf y hy
      simp only [idxOf, if_neg ham1, if_neg hay]
      omega

/-- C5: `select_method` implements the claim's selection rule.  Over any type
store, a duplicate-free method list (guaranteed by `add_method`'s duplicate
rejection) and an argument list of matching arity: it filters to the methods
all of whose matchers match; none signals `no-matching-method`; exactly one is
returned; among several, the candidate earliest in sorted-list position is
returned exactly when it is ≤ every other candidate, else
`ambiguous-method-resolution` is signalled (`selectMethodSpec` states the rule
in the claim's words). -/
theorem c5_selectMethod_spec (s : Store) (methods : List MethodM) (args : List Value)
    (hnd : methods.Nodup)
    (harity : ∀ mth ∈ methods, mth.paramMatchers.length = args.length) :
    selectMethod s methods args = selectMethodSpec s methods args := by
  unfold selectMethod selectMethodSpec
  cases hf : methods.filter
      (fun m => (args.zip m.paramMatchers).all (fun p => p.2.matchesV s p.1)) with
  | nil => rfl
  | cons m1 tl =>
    cases tl with
    | nil => rfl
    | cons m2 rest =>
      have hmin : minByKeyNE (idxOf methods) m1 (m2 :: rest) = m1 := by
        apply minByKeyNE_eq_head
        intro y hy
        have := idxOf_filter_head_le _ methods hnd m1 (m2 :: rest) hf y hy
        omega
      dsimp only
      rw [hmin]

/-- C5 witness: a concrete ambiguous instance — both a most-general method and
a Number-typed method match the number 3, neither is ≤ the other in list-head
position, and both selector versions agree (signalling ambiguity). -/
theorem c5_witness :
    selectMethod baseStore [⟨[.anyM], 0⟩, ⟨[.typeM 0], 1⟩] [.num 3] =
      selectMethodSpec baseStore [⟨[.anyM], 0⟩, ⟨[.typeM 0], 1⟩] [.num 3] :=
  c5_selectMethod_spec baseStore [⟨[.anyM], 0⟩, ⟨[.typeM 0], 1⟩] [.num 3]
    (by decide) (by decide)

/-! ## C6: add_method ordering -/

/-- Elements of the insertion result are the new method or old elements. -/
theorem mem_insertBeforeFirstLte (s : Store) (m z : MethodM) :
    ∀ ms, z ∈ insertBeforeFirstLte s m ms → z = m ∨ z ∈ ms := by
  intro ms
  induction ms with
  | nil =>
    intro h
    unfold insertBeforeFirstLte at h
    rcases List.mem_cons.mp h with h | h
    · exact Or.inl h
    · exact absurd h (List.not_mem_nil z)
  | cons x xs ih =>
    intro h
    unfold insertBeforeFirstLte at h
    by_cases hlte : methodLte s m x = true
    · rw [if_pos hlte] at h
      rcases List.mem_cons.mp h with h | h
      · exact Or.inl h
      · exact Or.inr h
    · rw [if_neg hlte] at h
      rcases List.mem_cons.mp h with h | h
      · exact Or.inr (by rw [h]; exact List.mem_cons_self x xs)
      · rcases ih h with h2 | h2
        · exact Or.inl h2
        · exact Or.inr (List.mem_cons_of_mem x h2)

/-- Insertion before the first ≥ method preserves the sort invariant and the
duplicate-freedom of matcher tuples, provided specificity is transitive and
antisymmetric over the involved methods. -/
theorem insertBeforeFirstLte_invariants (s : Store) (m : MethodM) :
    ∀ ms : List MethodM,
      (∀ a ∈ m :: ms, ∀ b ∈ m :: ms, ∀ c ∈ m :: ms,
        methodLte s a b = true → methodLte s b c = true → methodLte s a c = true) →
      (∀ a ∈ m :: ms, ∀ b ∈ m :: ms,
        methodLte s a b = true → methodLte s b a = true → a.paramMatchers = b.paramMatchers) →
      (∀ ex ∈ ms, ex.paramMatchers ≠ m.paramMatchers) →
      nodupSigs ms → specSorted s ms →
      specSorted s (insertBeforeFirstLte s m ms) ∧ nodupSigs (insertBeforeFirstLte s m ms) := by
  intro ms
  induction ms with
  | nil =>
    intro _ _ _ _ _
    exact ⟨List.pairwise_singleton _ _, List.pairwise_singleton _ _⟩
  | cons x xs ih =>
    intro htrans hanti hno hdup hsort
    have hmem : ∀ z, z ∈ m :: xs → z ∈ m :: x :: xs := by
      intro z hz
      rcases List.mem_cons.mp hz with h | h
      · exact h ▸ List.mem_cons_self _ _
      · exact List.mem_cons_of_mem _ (List.mem_cons_of_mem _ h)
    have hdup' := (List.pairwise_cons.mp hdup)
    have hsort' := (List.pairwise_cons.mp hsort)
    unfold insertBeforeFirstLte
    by_cases hlte : methodLte s m x = true
    · rw [if_pos hlte]
      constructor
      · -- specSorted (m :: x :: xs)
        apply List.pairwise_cons.mpr
        refine ⟨?_, hsort⟩
        intro y hy hym
        exfalso
        have hxmem : x ∈ m :: x :: xs :=
          List.mem_cons_of_mem _ (List.mem_cons_self _ _)
        rcases List.mem_cons.mp hy with heq | hyxs
        · -- y = x: x ≤ m and m ≤ x force equal matchers, contradicting hno
          have hxm : methodLte s x m = true := by rw [← heq]; exact hym
          have := hanti x hxmem m (List.mem_cons_self _ _) hxm hlte
          exact hno x (List.mem_cons_self _ _) this
        · -- y ∈ xs: y ≤ m ≤ x, so y ≤ x; sortedness forces y = x, contradiction
          have hyx : methodLte s y x = true :=
            htrans y (hmem y (List.mem_cons_of_mem _ hyxs)) m (List.mem_cons_self _ _)
              x hxmem hym hlte
          have heq : y = x := hsort'.1 y hyxs hyx
          have hxm : methodLte s x m = true := by rw [← heq]; exact hym
          have := hanti x hxmem m (List.mem_cons_self _ _) hxm hlte
          exact hno x (List.mem_cons_self _ _) this
      · -- nodupSigs (m :: x :: xs)
        apply List.pairwise_cons.mpr
        refine ⟨?_, hdup⟩
        intro y hy
        intro hcontra
        exact hno y hy hcontra.symm
    · rw [if_neg hlte]
      have ihres := ih
        (fun a ha b hb c hc => htrans a (hmem a ha) b (hmem b hb) c (hmem c hc))
        (fun a ha b hb => hanti a (hmem a ha) b (hmem b hb))
        (fun ex hex => hno ex (List.mem_cons_of_mem _ hex))
        hdup'.2 hsort'.2
      constructor
      · apply List.pairwise_cons.mpr
        refine ⟨?_, ihres.1⟩
        intro z hz hzx
        rcases mem_insertBeforeFirstLte s m z xs hz with rfl | hzxs
        · exact absurd hzx hlte
        · exact hsort'.1 z hzxs hzx
      · apply List.pairwise_cons.mpr
        refine ⟨?_, ihres.2⟩
        intro z hz
        rcases mem_insertBeforeFirstLte s m z xs hz with heq | hzxs
        · intro hcontra
          exact hno x (List.mem_cons_self _ _) (by rw [hcontra, heq])
        · exact hdup'.1 z hzxs

/-- C6 (counterexample): over the reachable stale store of `c1Setup`, with
single-parameter type-matcher methods mU (on U), mA (on A), mT (on T):
inserting mU, then mA (appended: A is not ≤ U), then mT (inserted before mU)
yields `[mT, mU, mA]`, where mA is strictly more specific than mT
(A ≤ T, mA ≠ mT) yet appears after it — the claimed invariant fails because
`is_subtype` (hence matcher specificity) is not transitive on this store. -/
theorem c6_order_counterexample :
    ∃ s, c1Setup = some s ∧
      ((addMethod s [] mU).bind (fun l1 =>
        (addMethod s l1 mA).bind (fun l2 => addMethod s l2 mT))) = .ok [mT, mU, mA] ∧
      methodLte s mA mT = true ∧ mA ≠ mT ∧
      idxOf [mT, mU, mA] mT = 0 ∧ idxOf [mT, mU, mA] mA = 2 :=
  ⟨c1Store, by decide, by rfl, by decide, by decide, by decide, by decide⟩

/-- C6 (amended): `add_method` rejects an exact duplicate matcher tuple and
otherwise inserts the new method before the first existing method it is ≤
(appending if none); *provided matcher specificity is transitive and
antisymmetric over the involved methods* (which can fail for stale
linearizations — see the counterexample), every such insertion preserves both
the duplicate-freedom of matcher tuples and the invariant that a strictly
more specific method never appears after a less specific one. -/
theorem c6_addMethod_sorted (s : Store) (ms : List MethodM) (m : MethodM)
    (htrans : ∀ a ∈ m :: ms, ∀ b ∈ m :: ms, ∀ c ∈ m :: ms,
      methodLte s a b = true → methodLte s b c = true → methodLte s a c = true)
    (hanti : ∀ a ∈ m :: ms, ∀ b ∈ m :: ms,
      methodLte s a b = true → methodLte s b a = true → a.paramMatchers = b.paramMatchers)
    (hdup : nodupSigs ms) (hsort : specSorted s ms) :
    ((∃ ex ∈ ms, ex.paramMatchers = m.paramMatchers) →
      addMethod s ms m = .error "Method signature already exists") ∧
    ((∀ ex ∈ ms, ex.paramMatchers ≠ m.paramMatchers) →
      addMethod s ms m = .ok (insertBeforeFirstLte s m ms) ∧
      specSorted s (insertBeforeFirstLte s m ms) ∧
      nodupSigs (insertBeforeFirstLte s m ms)) := by
  constructor
  · intro ⟨ex, hex, hpm⟩
    unfold addMethod
    rw [if_pos]
    rw [List.any_eq_true]
    exact ⟨ex, hex, by rw [beq_iff_eq]; exact hpm.symm⟩
  · intro hno
    have hnomem : ∀ ex ∈ ms, ex.paramMatchers ≠ m.paramMatchers := hno
    have hins := insertBeforeFirstLte_invariants s m ms htrans hanti hnomem hdup hsort
    refine ⟨?_, hins.1, hins.2⟩
    unfold addMethod
    rw [if_neg]
    intro hcontra
    rw [List.any_eq_true] at hcontra
    obtain ⟨ex, hex, hbeq⟩ := hcontra
    exact hno ex hex (beq_iff_eq.mp hbeq).symm

/-- C6 witness: adding a Number-typed method to a multimethod holding one
most-general method inserts it in front and both invariants hold. -/
theorem c6_witness :
    addMethod baseStore [⟨[.anyM], 5⟩] ⟨[.typeM 0], 6⟩ =
      .ok [⟨[.typeM 0], 6⟩, ⟨[.anyM], 5⟩] ∧
    specSorted baseStore [⟨[.typeM 0], 6⟩, ⟨[.anyM], 5⟩] ∧
    nodupSigs [⟨[.typeM 0], 6⟩, ⟨[.anyM], 5⟩] := by
  have h := (c6_addMethod_sorted baseStore [⟨[.anyM], 5⟩] ⟨[.typeM 0], 6⟩
    (by decide) (by decide) (by decide) (by decide)).2 (by decide)
  exact h


/-! ## C2: eager compilation of block bodies -/

/-- C2 (counterexample): compiling the bracketed block `[ 5 ]` emits a
push-closure whose Quote's body bytecode is already present (compiled while
the enclosing expression was being compiled, by `CompiledBody.__post_init__`)
— not absent as claimed. -/
theorem c2_eager_counterexample :
    ∃ q : Quote, compileExpr emptyCompCtxt (.quoteE [] (.literal (.numberLit 5))) =
        .ok [OpG.pushClosure q] ∧
      q.compiledBody.bytecode = some [OpG.pushValue (.num 5)] := by
  have hbody : compileExpr (CompCtxt.mk [("it", CSlot.undeterminedValue)] (some emptyCompCtxt))
      (.literal (.numberLit 5)) = .ok [OpG.pushValue (.num 5)] := by
    rw [compileExpr.eq_def]
    dsimp only
    rw [compileMain.eq_def]
  refine ⟨QuoteG.mk [] (CompiledBodyG.mk (.literal (.numberLit 5))
    (some [OpG.pushValue (.num 5)])
    (CompCtxt.mk [("it", CSlot.undeterminedValue)] (some emptyCompCtxt))) none, ?_, rfl⟩
  rw [compileExpr.eq_def]
  dsimp only
  rw [compileMain.eq_def]
  simp [hbody, Except.map]

/-- C2 (amended): compiling a bracketed block emits exactly one push-closure
carrying a Quote whose body bytecode is compiled eagerly at CompiledBody
creation, i.e. while the enclosing expression is being compiled (it is `None`
only after a later invalidation, and only then is it recompiled lazily at the
next invocation via `maybe_recompile`).  The body is compiled in a fresh
context binding the parameter names (default `it`) as undetermined values. -/
theorem c2_quote_compiles_eagerly (ctxt : CompCtxt) (params : List String)
    (body : Expr) (bc : List Op)
    (hbody : compileExpr (CompCtxt.mk ((if params = [] then ["it"] else params).map
      (fun p => (p, CSlot.undeterminedValue))) (some ctxt)) body = .ok bc) :
    compileExpr ctxt (.quoteE params body) =
      .ok [OpG.pushClosure (QuoteG.mk params
        (CompiledBodyG.mk body (some bc)
          (CompCtxt.mk ((if params = [] then ["it"] else params).map
            (fun p => (p, CSlot.undeterminedValue))) (some ctxt))) none)] := by
  rw [compileExpr.eq_def]
  dsimp only
  rw [compileMain.eq_def]
  simp [hbody, Except.map]

/-- C2 witness: the amended statement at the concrete block `\\x [ "s" ]`. -/
theorem c2_witness :
    compileExpr emptyCompCtxt (.quoteE ["x"] (.literal (.stringLit "s"))) =
      .ok [OpG.pushClosure (QuoteG.mk ["x"]
        (CompiledBodyG.mk (.literal (.stringLit "s")) (some [OpG.pushValue (.str "s")])
          (CompCtxt.mk ((if (["x"] : List String) = [] then ["it"] else ["x"]).map
            (fun p => (p, CSlot.undeterminedValue))) (some emptyCompCtxt))) none)] := by
  apply c2_quote_compiles_eagerly emptyCompCtxt ["x"] (.literal (.stringLit "s"))
    [OpG.pushValue (.str "s")]
  rw [compileExpr.eq_def]
  dsimp only
  rw [compileMain.eq_def]

/-! ## C7: tail-invoke frame accounting -/

/-- C7: a tail-invoke pops the caller before pushing the callee exactly when
the caller sits at its last instruction, is not itself a cleanup frame, has no
pending cleanup and has zero live ReturnContinuations — the stack depth is
then unchanged across the call — and in every other case the result is
exactly that of an ordinary non-tail invoke (caller kept, spot advanced, depth
grows by one). -/
theorem c7_tail_invoke (state : RState) (frame : CallFrame) (rest : List CallFrame)
    (name : String) (code : List Op) (ctxt : Ctxt) (recv : Value)
    (hstack : state.callStack = frame :: rest) :
    ((frame.spot = frame.sequence.length - 1 ∧ frame.isCleanup = false ∧
        frame.cleanup = none ∧ frame.numNonlocalReturns = 0) →
      invokeCompiled state name code ctxt recv none false none true =
        { callStack := newFrameFor state name code ctxt recv none false none :: rest,
          panicValue := state.panicValue, nextFid := state.nextFid + 1 } ∧
      (invokeCompiled state name code ctxt recv none false none true).callStack.length =
        state.callStack.length) ∧
    (¬ (frame.spot = frame.sequence.length - 1 ∧ frame.isCleanup = false ∧
        frame.cleanup = none ∧ frame.numNonlocalReturns = 0) →
      invokeCompiled state name code ctxt recv none false none true =
        invokeCompiled state name code ctxt recv none false none false) := by
  constructor
  · intro ⟨h1, h2, h3, h4⟩
    unfold invokeCompiled
    rw [hstack]
    simp only [h1, h2, h3, h4]
    constructor
    · simp
    · simp [hstack]
  · intro hneg
    have hdem : ((frame.spot != frame.sequence.length - 1) || frame.isCleanup ||
        frame.cleanup.isSome || (frame.numNonlocalReturns != 0)) = true := by
      by_contra hd
      apply hneg
      simp only [Bool.or_eq_true, not_or, Bool.not_eq_true, bne_eq_false_iff_eq,
        Option.not_isSome, Option.isNone_iff_eq_none] at hd
      obtain ⟨⟨⟨ha, hb⟩, hc⟩, hdne⟩ := hd
      refine ⟨ha, hb, hc, ?_⟩
      simpa using hdne
    unfold invokeCompiled
    rw [hstack]
    simp only [hdem]
    simp

/-- C7 witness: the conditions hold in `wTailState` and the tail invoke keeps
the frame count at one. -/
theorem c7_witness :
    invokeCompiled wTailState "g" [OpG.dropOp] emptyCtxt .null none false none true =
      { callStack := [newFrameFor wTailState "g" [OpG.dropOp] emptyCtxt .null none false none],
        panicValue := none, nextFid := 2 } ∧
    (invokeCompiled wTailState "g" [OpG.dropOp] emptyCtxt .null none false none true).callStack.length =
      wTailState.callStack.length :=
  (c7_tail_invoke wTailState (wFrame [OpG.dropOp, OpG.dropOp] 1 [] none false none false 0 0)
    [] "g" [OpG.dropOp] emptyCtxt .null rfl).1 ⟨rfl, rfl, rfl, rfl⟩

/-! ## C10: calling a non-callable value -/

/-- C10: invoking `call` or `call:` on a receiver that is not a Quote,
Continuation or ReturnContinuation (no cleanup attached) never fails: the
receiver itself is pushed onto the caller's data stack as the result, the
caller's pc advances by one, and the rest of the call stack is unchanged. -/
theorem c10_noncallable_call (state : RState) (top : CallFrame) (rest : List CallFrame)
    (receiver v : Value) (tc : Bool)
    (hstack : state.callStack = top :: rest)
    (hq : ∀ q, receiver ≠ .quote q)
    (hc : ∀ c, receiver ≠ .continuation c)
    (hr : ∀ fid, receiver ≠ .returnCont fid) :
    intrinsicCall state tc receiver =
      .ok { state with callStack :=
        ({ top with dataStack := .val receiver :: top.dataStack, spot := top.spot + 1 }) :: rest } ∧
    intrinsicCallWith state tc receiver v =
      .ok { state with callStack :=
        ({ top with dataStack := .val receiver :: top.dataStack, spot := top.spot + 1 }) :: rest } := by
  constructor
  · unfold intrinsicCall
    cases receiver with
    | quote q => exact absurd rfl (hq q)
    | continuation c => exact absurd rfl (hc c)
    | returnCont f => exact absurd rfl (hr f)
    | num n => rw [callImpl.eq_def]; dsimp only; rw [hstack]
    | str s2 => rw [callImpl.eq_def]; dsimp only; rw [hstack]
    | bool b => rw [callImpl.eq_def]; dsimp only; rw [hstack]
    | null => rw [callImpl.eq_def]; dsimp only; rw [hstack]
    | symbol s2 => rw [callImpl.eq_def]; dsimp only; rw [hstack]
    | tuple xs => rw [callImpl.eq_def]; dsimp only; rw [hstack]
    | vector xs => rw [callImpl.eq_def]; dsimp only; rw [hstack]
    | typeV t => rw [callImpl.eq_def]; dsimp only; rw [hstack]
    | dataclassV t vs => rw [callImpl.eq_def]; dsimp only; rw [hstack]
  · unfold intrinsicCallWith
    cases receiver with
    | quote q => exact absurd rfl (hq q)
    | continuation c => exact absurd rfl (hc c)
    | returnCont f => exact absurd rfl (hr f)
    | num n => rw [callImpl.eq_def]; dsimp only; rw [hstack]
    | str s2 => rw [callImpl.eq_def]; dsimp only; rw [hstack]
    | bool b => rw [callImpl.eq_def]; dsimp only; rw [hstack]
    | null => rw [callImpl.eq_def]; dsimp only; rw [hstack]
    | symbol s2 => rw [callImpl.eq_def]; dsimp only; rw [hstack]
    | tuple xs => rw [callImpl.eq_def]; dsimp only; rw [hstack]
    | vector xs => rw [callImpl.eq_def]; dsimp only; rw [hstack]
    | typeV t => rw [callImpl.eq_def]; dsimp only; rw [hstack]
    | dataclassV t vs => rw [callImpl.eq_def]; dsimp only; rw [hstack]

/-- C10 witness: calling the number 7 in `wRunState` pushes 7 and advances. -/
theorem c10_witness :
    intrinsicCall wRunState false (.num 7) =
      .ok { callStack := [wFrame [OpG.dropOp, OpG.dropOp] 1 [.val (.num 7)] none false none false 0 0],
            panicValue := none, nextFid := 1 } ∧
    intrinsicCallWith wRunState false (.num 7) .null =
      .ok { callStack := [wFrame [OpG.dropOp, OpG.dropOp] 1 [.val (.num 7)] none false none false 0 0],
            panicValue := none, nextFid := 1 } :=
  c10_noncallable_call wRunState (wFrame [OpG.dropOp, OpG.dropOp] 0 [] none false none false 0 0)
    [] (.num 7) .null false rfl (fun _ h => Value.noConfusion h)
    (fun _ h => Value.noConfusion h) (fun _ h => Value.noConfusion h)


/-! ## C8: multi-shot continuations -/

theorem frameCore_copyFrame (fid : Nat) (f : CallFrame) :
    frameCore (copyFrame fid f) = frameCore f := by
  cases f
  rfl

theorem copyStackFrom_map_frameCore (fid : Nat) (l : List CallFrame) :
    (copyStackFrom fid l).map frameCore = l.map frameCore := by
  induction l generalizing fid with
  | nil => rfl
  | cons f rest ih =>
    simp only [copyStackFrom, List.map_cons, frameCore_copyFrame, ih]

theorem copyFrame_push (fid : Nat) (f : CallFrame) (v : Value) :
    { copyFrame fid f with dataStack := DSElemG.val v :: (copyFrame fid f).dataStack } =
      copyFrame fid { f with dataStack := DSElemG.val v :: f.dataStack } := by
  cases f
  rfl

/-- C8: invoking a Continuation via `call:` replaces the whole current call
stack with a fresh per-frame copy of the captured snapshot (each copy a new
frame identity) and pushes the argument onto the new top frame's data stack;
forgetting frame identities, the new stack is exactly the snapshot with the
argument pushed.  The snapshot `cont` is a pure value the operation only
reads, and the result does not depend on the current stack, so a second
invocation with a different argument — from any state — resumes from the
identical captured frames with no leakage from the first resumption. -/
theorem c8_continuation_call (state : RState) (cont : RState) (v : Value) (tc : Bool)
    (top : CallFrame) (rest : List CallFrame)
    (hsnap : cont.callStack = top :: rest) :
    intrinsicCallWith state tc (.continuation cont) v =
      .ok ⟨copyFrame state.nextFid { top with dataStack := DSElemG.val v :: top.dataStack } ::
             copyStackFrom (state.nextFid + 1) rest,
           state.panicValue, state.nextFid + cont.callStack.length⟩ ∧
    (intrinsicCallWith state tc (.continuation cont) v).map
        (fun s => s.callStack.map frameCore) =
      .ok (frameCore { top with dataStack := DSElemG.val v :: top.dataStack } ::
             rest.map frameCore) := by
  have h1 : intrinsicCallWith state tc (.continuation cont) v =
      .ok ⟨copyFrame state.nextFid { top with dataStack := DSElemG.val v :: top.dataStack } ::
             copyStackFrom (state.nextFid + 1) rest,
           state.panicValue, state.nextFid + cont.callStack.length⟩ := by
    unfold intrinsicCallWith
    rw [callImpl.eq_def]
    dsimp only
    rw [hsnap]
    dsimp only [copyStackFrom]
    rw [copyFrame_push]
    rfl
  refine ⟨h1, ?_⟩
  rw [h1]
  dsimp only [Except.map]
  rw [List.map_cons, copyStackFrom_map_frameCore, frameCore_copyFrame]

/-- C8 witness: resuming the one-frame snapshot `wSnap` from `wRunState` with
argument 9 installs a fresh copy of the captured frame with 9 pushed atop its
captured data stack. -/
theorem c8_witness :
    intrinsicCallWith wRunState false (.continuation wSnap) (.num 9) =
      .ok ⟨[wFrame [OpG.dropOp] 0 [.val (.num 9), .val (.num 5)] none false none false 0 1],
           none, 2⟩ ∧
    (intrinsicCallWith wRunState false (.continuation wSnap) (.num 9)).map
        (fun s => s.callStack.map frameCore) =
      .ok [wFrame [OpG.dropOp] 0 [.val (.num 9), .val (.num 5)] none false none false 0 0] :=
  c8_continuation_call wRunState wSnap (.num 9) false
    (wFrame [OpG.dropOp] 0 [.val (.num 5)] none false none false 0 0) [] rfl

/-! ## C9: cleanup runs once on pop; retained value reaches the ancestor -/

/-- C9: (1) when a frame that `cleanup:` equipped with a cleanup quote is
popped — because its pc reached the end of its bytecode (normal return) or
because it was force-unwound (return-continuation escape or panic) — the VM
pops it and pushes exactly one fresh is-cleanup frame invoking the cleanup
with no arguments, retaining the frame's return value in `cleanupRetain`; the
pushed frame carries `cleanup := none`, so the action cannot run a second
time for this activation.  (2) When that is-cleanup frame is itself popped,
the value pushed to the next frame below is the retained `cleanupRetain`
value, not the cleanup body's own result.  (3) `panic!:` stores the panic
value and marks every frame force-unwind except frames actively running a
cleanup, which it leaves unchanged — so a panic pops cleanup-equipped frames
through case (1) while in-flight cleanups run to completion. -/
theorem c9_cleanup_once_and_retain :
    (∀ (state : RState) (frame : CallFrame) (rest : List CallFrame) (rv : Value)
        (ds : List DSElem) (cb : CompiledBody) (qc : Option Ctxt) (bc : List Op),
      state.callStack = frame :: rest →
      (frame.spot = frame.sequence.length ∨ frame.forceUnwind = true) →
      frame.isCleanup = false →
      frame.dataStack = DSElemG.val rv :: ds →
      frame.cleanup = some (.quote (QuoteG.mk [] cb qc)) →
      maybeRecompile cb = .ok bc →
      evalOneOp state =
        .ok ⟨newFrameFor state "call" bc (CtxtG.mk [("it", Sum.inl Value.null)] qc)
               Value.null none true (some rv) :: rest,
             state.panicValue, state.nextFid + 1⟩) ∧
    (∀ (state : RState) (frame nf : CallFrame) (rest2 : List CallFrame) (rv : Value),
      state.callStack = frame :: nf :: rest2 →
      (frame.spot = frame.sequence.length ∨ frame.forceUnwind = true) →
      frame.isCleanup = true →
      frame.cleanup = none →
      frame.cleanupRetain = some rv →
      evalOneOp state =
        .ok ⟨{ nf with dataStack := DSElemG.val rv :: nf.dataStack } :: rest2,
             state.panicValue, state.nextFid⟩) ∧
    (∀ (state : RState) (top : CallFrame) (rest : List CallFrame) (recv v : Value) (tc : Bool),
      state.callStack = top :: rest →
      intrinsicPanicWith state tc recv v =
        .ok ⟨{ panicMark top with
                 dataStack := DSElemG.junk "<this value must not be used!>" ::
                   (panicMark top).dataStack,
                 spot := (panicMark top).spot + 1 } :: rest.map panicMark,
             some v, state.nextFid⟩ ∧
      ∀ f : CallFrame, (f.isCleanup = true → panicMark f = f) ∧
        (f.isCleanup = false → panicMark f = { f with forceUnwind := true })) := by
  refine ⟨?_, ?_, ?_⟩
  · intro state frame rest rv ds cb qc bc hstack hret hncl hds hcl hbc
    have hcond : (frame.spot == frame.sequence.length || frame.forceUnwind) = true := by
      rcases hret with h | h
      · simp [h]
      · simp [h]
    unfold evalOneOp
    rw [hstack]
    dsimp only
    rw [hcond]
    simp only [if_true, hncl, Bool.false_eq_true, if_false, hds, hcl]
    rw [callImpl.eq_def]
    dsimp only
    simp only [hbc]
    unfold invokeCompiled
    cases rest with
    | nil => rfl
    | cons nf rest2 => rfl
  · intro state frame nf rest2 rv hstack hret hisCl hclnone hretain
    have hcond : (frame.spot == frame.sequence.length || frame.forceUnwind) = true := by
      rcases hret with h | h
      · simp [h]
      · simp [h]
    unfold evalOneOp
    rw [hstack]
    dsimp only
    rw [hcond]
    simp only [if_true, hisCl, if_true, hretain, hclnone]
  · intro state top rest recv v tc hstack
    constructor
    · unfold intrinsicPanicWith
      rw [hstack]
      rfl
    · intro f
      constructor
      · intro h
        unfold panicMark
        rw [h]
        rfl
      · intro h
        unfold panicMark
        rw [h]
        rfl

/-- C9 witness: in `wCleanupState` the returning frame (value 42, cleanup
`[ 1 ]`) is popped and replaced by a single is-cleanup frame retaining 42;
in `wRetainState` the finished cleanup frame passes the retained 42 (not its
own body result 1) down to the caller. -/
theorem c9_witness :
    evalOneOp wCleanupState =
      .ok ⟨newFrameFor wCleanupState "call" [OpG.pushValue (.num 1)]
             (CtxtG.mk [("it", Sum.inl Value.null)] (some emptyCtxt))
             Value.null none true (some (.num 42)) ::
             [wFrame [OpG.dropOp] 1 [] none false none false 0 1],
           none, 3⟩ ∧
    evalOneOp wRetainState =
      .ok ⟨[wFrame [OpG.dropOp] 1 [.val (.num 42)] none false none false 0 1],
           none, 2⟩ :=
  ⟨c9_cleanup_once_and_retain.1 wCleanupState
      (wFrame [] 0 [.val (.num 42)] (some (.quote wQuote)) false none false 0 0)
      [wFrame [OpG.dropOp] 1 [] none false none false 0 1] (.num 42) []
      (CompiledBodyG.mk (.literal (.numberLit 1)) (some [OpG.pushValue (.num 1)])
        (CompCtxt.mk [("it", CSlot.undeterminedValue)] (some emptyCompCtxt)))
      (some emptyCtxt) [OpG.pushValue (.num 1)]
      rfl (Or.inl rfl) rfl rfl rfl rfl,
   c9_cleanup_once_and_retain.2.1 wRetainState
      (wFrame [OpG.pushValue (.num 1)] 1 [.val (.num 1)] none true (some (.num 42)) false 0 0)
      (wFrame [OpG.dropOp] 1 [] none false none false 0 1) [] (.num 42)
      rfl (Or.inl rfl) rfl rfl rfl⟩

end Katsu
